import Mathlib

/-!
Verification of the gis.ph MCP gateway (Cloudflare worker / Hono variants).

The development shallowly embeds the TypeScript sources:
* a `Json` value type with the two serializations the code uses
  (`JSON.stringify(v)` and `JSON.stringify(v, null, 2)`) and a parser
  modelling `JSON.parse` / `response.json()`;
* the `gisApi` upstream-request builder of each variant;
* the tool registry of the worker variant (schemas and per-tool routing);
* the credential resolvers and top-level `fetch` routers of each variant;
* the persisted-session (`McpAgent` with `State { apiKey }`) init step.
-/

namespace GisPh

/-- JSON values as the gateway manipulates them.  Numbers are modelled as
integers (every number the embedded code itself produces -- lengths, status
codes, stringified coordinates -- is an integer). -/
inductive Json where
  | null
  | bool (b : Bool)
  | num (i : Int)
  | str (s : String)
  | arr (items : List Json)
  | obj (fields : List (String × Json))

/-- The two brace characters, kept as named constants. -/
def lbrace : Char := Char.ofNat 123

def rbrace : Char := Char.ofNat 125

/-- Decimal digit character for `k < 10`. -/
def digitChar10 (k : Nat) : Char := Char.ofNat (48 + k)

def isDigitCh (c : Char) : Bool := decide ('0' ≤ c) && decide (c ≤ '9')

/-- Decimal digit characters of `n`, most significant first (the digits of
`String(n)` / `JSON.stringify(n)` for a non-negative integer). -/
def natDigits (n : Nat) : List Char :=
  if n < 10 then [digitChar10 n]
  else natDigits (n / 10) ++ [digitChar10 (n % 10)]
termination_by n
decreasing_by exact Nat.div_lt_self (by omega) (by omega)

/-- Characters of `JSON.stringify(i)` for an integer. -/
def intChars (i : Int) : List Char :=
  (if i < 0 then ['-'] else []) ++ natDigits i.natAbs

/-- Decimal string `String(n)` for a natural number. -/
def natStr (n : Nat) : String := ⟨natDigits n⟩

/-- Decode a digit run back to the natural number it denotes. -/
def digitsToNat (ds : List Char) : Nat :=
  ds.foldl (fun a c => a * 10 + (c.toNat - 48)) 0

/-- Split a leading digit run off a character list. -/
def takeDigits : List Char → List Char × List Char
  | [] => ([], [])
  | c :: cs =>
    if isDigitCh c then
      let p := takeDigits cs
      (c :: p.1, p.2)
    else ([], c :: cs)

/-- True precisely when the list cannot extend a decimal digit run. -/
def noDigitHead : List Char → Bool
  | [] => true
  | c :: _ => !(isDigitCh c)

/-! ### String escaping (the string serialization of `JSON.stringify`) -/

/-- Lower-case hexadecimal digit character for `k < 16`. -/
def hexChar (k : Nat) : Char :=
  if k < 10 then Char.ofNat (48 + k) else Char.ofNat (87 + k)

/-- One character of a string value, escaped exactly as `JSON.stringify`
escapes it: quote, backslash, the named control escapes, `\u00XX` for the
remaining control characters, and everything else verbatim. -/
def escChar (c : Char) : List Char :=
  if c = '"' then ['\\', '"']
  else if c = '\\' then ['\\', '\\']
  else if c = '\n' then ['\\', 'n']
  else if c = '\r' then ['\\', 'r']
  else if c = '\t' then ['\\', 't']
  else if c = '\x08' then ['\\', 'b']
  else if c = '\x0c' then ['\\', 'f']
  else if c.toNat < 32 then
    ['\\', 'u', '0', '0', hexChar (c.toNat / 16), hexChar (c.toNat % 16)]
  else [c]

def escStr (cs : List Char) : List Char := cs.flatMap escChar

/-- The serialized form of a JSON string value: quoted and escaped. -/
def strLit (s : String) : List Char := '"' :: (escStr s.data ++ ['"'])

/-- Value of a hexadecimal digit character, as `JSON.parse` reads it. -/
def hexv (c : Char) : Option Nat :=
  if decide ('0' ≤ c) && decide (c ≤ '9') then some (c.toNat - 48)
  else if decide ('a' ≤ c) && decide (c ≤ 'f') then some (c.toNat - 87)
  else if decide ('A' ≤ c) && decide (c ≤ 'F') then some (c.toNat - 55)
  else none

/-- The single-character escapes `JSON.parse` accepts after a backslash. -/
def unescCh (c : Char) : Option Char :=
  if c = '"' then some '"'
  else if c = '\\' then some '\\'
  else if c = '/' then some '/'
  else if c = 'n' then some '\n'
  else if c = 'r' then some '\r'
  else if c = 't' then some '\t'
  else if c = 'b' then some '\x08'
  else if c = 'f' then some '\x0c'
  else none

/-- Read the body of a string literal after its opening quote, undoing the
escapes; returns the decoded characters and the input after the closing
quote. -/
def strBody : List Char → Option (List Char × List Char)
  | [] => none
  | '"' :: r => some ([], r)
  | '\\' :: 'u' :: a :: b :: c3 :: d :: r =>
    match hexv a, hexv b, hexv c3, hexv d with
    | some va, some vb, some vc, some vd =>
      match strBody r with
      | some (cs, rest) => some (Char.ofNat (((va * 16 + vb) * 16 + vc) * 16 + vd) :: cs, rest)
      | none => none
    | _, _, _, _ => none
  | '\\' :: e :: r =>
    match unescCh e with
    | some ch =>
      match strBody r with
      | some (cs, rest) => some (ch :: cs, rest)
      | none => none
    | none => none
  | c :: r =>
    match strBody r with
    | some (cs, rest) => some (c :: cs, rest)
    | none => none

/-! ### Serialization: `JSON.stringify(v)` and `JSON.stringify(v, null, 2)` -/

mutual
/-- Characters of `JSON.stringify(v)` (compact form: no added whitespace). -/
def jstrL : Json → List Char
  | .null => "null".data
  | .bool true => "true".data
  | .bool false => "false".data
  | .num i => intChars i
  | .str s => strLit s
  | .arr [] => ['[', ']']
  | .arr (x :: xs) => '[' :: (jstrL x ++ jstrTailItems xs ++ [']'])
  | .obj [] => [lbrace, rbrace]
  | .obj (f :: fs) => lbrace :: (strLit f.1 ++ ':' :: jstrL f.2 ++ jstrTailFields fs ++ [rbrace])
def jstrTailItems : List Json → List Char
  | [] => []
  | x :: xs => ',' :: (jstrL x ++ jstrTailItems xs)
def jstrTailFields : List (String × Json) → List Char
  | [] => []
  | f :: fs => ',' :: (strLit f.1 ++ ':' :: jstrL f.2 ++ jstrTailFields fs)
end

/-- Compact `JSON.stringify(v)` as a string. -/
def jstr (v : Json) : String := ⟨jstrL v⟩

/-- An indentation run of `k` spaces. -/
def pad (k : Nat) : List Char := List.replicate k ' '

mutual
/-- Characters of `JSON.stringify(v, null, 2)` at nesting level `lvl`:
2-space indentation, a newline after every opening bracket and every comma,
and the closing bracket on its own line at the enclosing level. -/
def ppL (lvl : Nat) : Json → List Char
  | .null => "null".data
  | .bool true => "true".data
  | .bool false => "false".data
  | .num i => intChars i
  | .str s => strLit s
  | .arr [] => ['[', ']']
  | .arr (x :: xs) =>
    '[' :: '\n' :: (pad (2 * lvl + 2) ++ ppL (lvl + 1) x ++ ppItems (lvl + 1) xs
      ++ '\n' :: (pad (2 * lvl) ++ [']']))
  | .obj [] => [lbrace, rbrace]
  | .obj (f :: fs) =>
    lbrace :: '\n' :: (pad (2 * lvl + 2) ++ ppField (lvl + 1) f ++ ppFields (lvl + 1) fs
      ++ '\n' :: (pad (2 * lvl) ++ [rbrace]))
def ppField (lvl : Nat) : String × Json → List Char
  | (k, v) => strLit k ++ ':' :: ' ' :: ppL lvl v
def ppItems (lvl : Nat) : List Json → List Char
  | [] => []
  | x :: xs => ',' :: '\n' :: (pad (2 * lvl) ++ ppL lvl x ++ ppItems lvl xs)
def ppFields (lvl : Nat) : List (String × Json) → List Char
  | [] => []
  | f :: fs => ',' :: '\n' :: (pad (2 * lvl) ++ ppField lvl f ++ ppFields lvl fs)
end

/-- Pretty-printed `JSON.stringify(v, null, 2)` as a string. -/
def jstrPretty (v : Json) : String := ⟨ppL 0 v⟩

/-! ### Parsing: the model of `JSON.parse` / `response.json()` -/

def isWsCh (c : Char) : Bool := c = ' ' || c = '\n' || c = '\t' || c = '\r'

/-- Drop leading JSON whitespace. -/
def dropWs : List Char → List Char
  | [] => []
  | c :: cs => if isWsCh c then dropWs cs else c :: cs

/-- Read a JSON integer (optional minus sign, then a digit run). -/
def parseNum (cs : List Char) : Option (Int × List Char) :=
  match cs with
  | [] => none
  | c :: r =>
    if c = '-' then
      match takeDigits r with
      | ([], _) => none
      | (ds, r2) => some (-(digitsToNat ds : Int), r2)
    else
      match takeDigits (c :: r) with
      | ([], _) => none
      | (ds, r2) => some ((digitsToNat ds : Int), r2)

mutual
/-- Read one JSON value.  `fuel` is spent on every recursive step; any fuel
larger than the input length suffices. -/
def parseVal : Nat → List Char → Option (Json × List Char)
  | 0, _ => none
  | fuel + 1, cs =>
    match dropWs cs with
    | 'n' :: 'u' :: 'l' :: 'l' :: r => some (.null, r)
    | 't' :: 'r' :: 'u' :: 'e' :: r => some (.bool true, r)
    | 'f' :: 'a' :: 'l' :: 's' :: 'e' :: r => some (.bool false, r)
    | '"' :: r =>
      match strBody r with
      | some (cs2, r2) => some (.str ⟨cs2⟩, r2)
      | none => none
    | '[' :: r =>
      match dropWs r with
      | [] => none
      | c :: r2 =>
        if c = ']' then some (.arr [], r2)
        else
          match parseItems fuel (c :: r2) with
          | some (vs, r3) => some (.arr vs, r3)
          | none => none
    | c :: r =>
      if c = lbrace then
        match dropWs r with
        | [] => none
        | c2 :: r2 =>
          if c2 = rbrace then some (.obj [], r2)
          else
            match parseFields fuel (c2 :: r2) with
            | some (ms, r3) => some (.obj ms, r3)
            | none => none
      else if c = '-' || isDigitCh c then
        match parseNum (c :: r) with
        | some (i, r2) => some (.num i, r2)
        | none => none
      else none
    | [] => none
/-- Read one-or-more comma-separated array elements up to the closing `]`. -/
def parseItems : Nat → List Char → Option (List Json × List Char)
  | 0, _ => none
  | fuel + 1, cs =>
    match parseVal fuel cs with
    | none => none
    | some (v, r) =>
      match dropWs r with
      | [] => none
      | c :: r2 =>
        if c = ',' then
          match parseItems fuel (dropWs r2) with
          | some (vs, r3) => some (v :: vs, r3)
          | none => none
        else if c = ']' then some ([v], r2)
        else none
/-- Read one-or-more comma-separated object members up to the closing brace. -/
def parseFields : Nat → List Char → Option (List (String × Json) × List Char)
  | 0, _ => none
  | fuel + 1, cs =>
    match dropWs cs with
    | '"' :: r =>
      match strBody r with
      | none => none
      | some (kcs, r1) =>
        match dropWs r1 with
        | [] => none
        | c :: r2 =>
          if c = ':' then
            match parseVal fuel (dropWs r2) with
            | none => none
            | some (v, r3) =>
              match dropWs r3 with
              | [] => none
              | c2 :: r4 =>
                if c2 = ',' then
                  match parseFields fuel (dropWs r4) with
                  | some (ms, r5) => some ((⟨kcs⟩, v) :: ms, r5)
                  | none => none
                else if c2 = rbrace then some ([(⟨kcs⟩, v)], r4)
                else none
          else none
    | _ => none
end

/-- The model of `JSON.parse` (hence of `response.json()`): a parse of the
whole input, allowing trailing whitespace only.  `none` models the thrown
`SyntaxError`. -/
def jsonParse (s : String) : Option Json :=
  match parseVal (s.data.length + 1) s.data with
  | some (j, r) => if dropWs r = [] then some j else none
  | none => none

/-! ### The upstream client (`gisApi` of each variant) -/

def baseUrl : String := "https://api.gis.ph/v1"

/-- One upstream HTTP request as `gisApi` builds it: method, absolute URL
(before the query string), query parameters in insertion order, headers. -/
structure UpstreamRequest where
  method : String
  url : String
  query : List (String × String)
  headers : List (String × String)
deriving DecidableEq

/-- Query construction shared by every variant's `gisApi`:
`if (value) url.searchParams.set(key, value)` — a pair is kept only when its
value is truthy, i.e. a non-empty string. -/
def buildQuery (params : Option (List (String × String))) : List (String × String) :=
  match params with
  | none => []
  | some ps => ps.filter (fun p => p.2 ≠ "")

/-- The request built by the worker variant's `gisApi` (sends `Authorization`
and `Content-Type`). -/
def gisApiRequest (path apiKey : String) (params : Option (List (String × String))) :
    UpstreamRequest :=
  { method := "GET"
    url := baseUrl ++ path
    query := buildQuery params
    headers := [("Authorization", "Bearer " ++ apiKey), ("Content-Type", "application/json")] }

/-- The request built by the Hono variant's `gisApi` (sends `Authorization` only). -/
def gisApiRequestHono (path apiKey : String) (params : Option (List (String × String))) :
    UpstreamRequest :=
  { method := "GET"
    url := baseUrl ++ path
    query := buildQuery params
    headers := [("Authorization", "Bearer " ++ apiKey)] }

/-- The request built by the persisted variant's `gisApi` (sends `Authorization` only). -/
def gisApiRequestPersisted (path apiKey : String) (params : Option (List (String × String))) :
    UpstreamRequest :=
  { method := "GET"
    url := baseUrl ++ path
    query := buildQuery params
    headers := [("Authorization", "Bearer " ++ apiKey)] }

/-- How `gisApi` fails. -/
inductive GisFailure where
  | apiError (message : String)
  | badJson
deriving DecidableEq

/-- Success test `response.ok`: status in the inclusive range 200-299. -/
def responseOk (status : Nat) : Bool := decide (200 ≤ status) && decide (status ≤ 299)

/-- Response handling of `gisApi`: on a non-ok status the body
is read as text and a `new Error` carrying the status and raw body is thrown;
on an ok status the body is parsed as JSON (`badJson` models the parse
`SyntaxError`). -/
def gisHandleResponse (status : Nat) (bodyText : String) : Except GisFailure Json :=
  if responseOk status then
    match jsonParse bodyText with
    | some j => .ok j
    | none => .error .badJson
  else .error (.apiError ("gis.ph API error " ++ natStr status ++ ": " ++ bodyText))

/-- Recover the numeric status from a `gisApi` error message (the digit run
after the fixed 17-character message head). -/
def errMsgStatus (msg : String) : Nat := digitsToNat (takeDigits (msg.data.drop 17)).1

/-- Recover the raw body text from a `gisApi` error message (everything after
the status digits and the separating colon-space). -/
def errMsgBody (msg : String) : String := ⟨((takeDigits (msg.data.drop 17)).2).drop 2⟩

/-! ### The tool registry (worker variant A) -/

inductive ParamTy where
  | str
  | num
  | strEnum (options : List String)
deriving DecidableEq

structure ParamSpec where
  name : String
  required : Bool
  ty : ParamTy
deriving DecidableEq

structure ToolSchema where
  name : String
  about : String
  params : List ParamSpec
deriving DecidableEq

/-- The nine tools the worker variant registers, with their zod schemas:
`z.string()` is a required string, `.optional()` an optional one, `z.enum`
an enumerated string, `z.number()` a number. -/
def toolSchemas : List ToolSchema :=
  [⟨"get_provinces", "Get all 81 provinces in the Philippines", []⟩,
   ⟨"get_province", "Get details of a specific province by its code",
     [⟨"province_code", true, .str⟩]⟩,
   ⟨"get_cities", "Get all cities and municipalities, optionally filtered by province",
     [⟨"province_code", false, .str⟩]⟩,
   ⟨"get_city", "Get details of a specific city or municipality by its code",
     [⟨"city_code", true, .str⟩]⟩,
   ⟨"get_barangays", "Get all barangays, optionally filtered by city or province",
     [⟨"city_code", false, .str⟩, ⟨"province_code", false, .str⟩]⟩,
   ⟨"get_barangay", "Get details of a specific barangay by its code",
     [⟨"barangay_code", true, .str⟩]⟩,
   ⟨"search_location", "Search for any location in the Philippines by name",
     [⟨"query", true, .str⟩,
      ⟨"type", false, .strEnum ["province", "city", "municipality", "barangay"]⟩]⟩,
   ⟨"reverse_geocode", "Find the barangay, city, and province for given coordinates",
     [⟨"lat", true, .num⟩, ⟨"lng", true, .num⟩]⟩,
   ⟨"get_demographics", "Get demographic and population data for a location",
     [⟨"location_code", true, .str⟩,
      ⟨"level", true, .strEnum ["province", "city", "barangay"]⟩]⟩]

inductive ArgVal where
  | s (v : String)
  | n (v : Int)
deriving DecidableEq

/-- A tool invocation's argument mapping. -/
abbrev Args := List (String × ArgVal)

def argLookup (args : Args) (name : String) : Option ArgVal :=
  (args.find? (fun p => p.1 = name)).map (fun p => p.2)

def argStr (args : Args) (name : String) : Option String :=
  match argLookup args name with
  | some (.s v) => some v
  | _ => none

def argNum (args : Args) (name : String) : Option Int :=
  match argLookup args name with
  | some (.n v) => some v
  | _ => none

def tyOk : ParamTy → ArgVal → Bool
  | .str, .s _ => true
  | .num, .n _ => true
  | .strEnum options, .s v => options.contains v
  | _, _ => false

/-- Modelled from the spec: schema validation performed by the MCP SDK's
zod layer, which is a dependency, not part of these sources.  Per §4.3 step 2:
every required parameter must be present with the declared type, every present
optional parameter must match its type or enumeration, unknown parameters are
ignored. -/
def validateArgs (ps : List ParamSpec) (args : Args) : Bool :=
  ps.all (fun p =>
    match argLookup args p.name with
    | none => !p.required
    | some v => tyOk p.ty v)

/-- JavaScript string truthiness of a possibly-undefined string (`if (x)`). -/
def jsTruthy : Option String → Bool
  | some v => v ≠ ""
  | none => false

def intStr (i : Int) : String := ⟨intChars i⟩

/-- The upstream request each worker-variant tool handler constructs from its
validated arguments (one `gisApi` call per handler, transcribed from the
source). -/
def routeTool (toolName : String) (args : Args) (apiKey : String) : Option UpstreamRequest :=
  if toolName = "get_provinces" then
    some (gisApiRequest "/provinces" apiKey none)
  else if toolName = "get_province" then
    some (gisApiRequest ("/provinces/" ++ (argStr args "province_code").getD "") apiKey none)
  else if toolName = "get_cities" then
    let pc := argStr args "province_code"
    some (gisApiRequest "/cities" apiKey
      (if jsTruthy pc then some [("province_code", pc.getD "")] else none))
  else if toolName = "get_city" then
    some (gisApiRequest ("/cities/" ++ (argStr args "city_code").getD "") apiKey none)
  else if toolName = "get_barangays" then
    let cc := argStr args "city_code"
    let pc := argStr args "province_code"
    some (gisApiRequest "/barangays" apiKey
      (some ((if jsTruthy cc then [("city_code", cc.getD "")] else [])
        ++ (if jsTruthy pc then [("province_code", pc.getD "")] else []))))
  else if toolName = "get_barangay" then
    some (gisApiRequest ("/barangays/" ++ (argStr args "barangay_code").getD "") apiKey none)
  else if toolName = "search_location" then
    let t := argStr args "type"
    some (gisApiRequest "/search" apiKey
      (some (("q", (argStr args "query").getD "")
        :: (if jsTruthy t then [("type", t.getD "")] else []))))
  else if toolName = "reverse_geocode" then
    some (gisApiRequest "/reverse-geocode" apiKey
      (some [("lat", intStr ((argNum args "lat").getD 0)),
             ("lng", intStr ((argNum args "lng").getD 0))]))
  else if toolName = "get_demographics" then
    some (gisApiRequest "/analytics/demographics" apiKey
      (some [("code", (argStr args "location_code").getD ""),
             ("level", (argStr args "level").getD "")]))
  else none

inductive ContentBlock where
  | text (s : String)
deriving DecidableEq

/-- The gateway's response envelope. -/
structure Envelope where
  content : List ContentBlock
deriving DecidableEq

/-- Every handler returns
`{ content: [{ type: "text", text: JSON.stringify(data, null, 2) }] }`. -/
def mkEnvelope (data : Json) : Envelope := ⟨[.text (jstrPretty data)]⟩

inductive DispatchOutcome where
  | unknownTool
  | invalidArguments
  | success (env : Envelope)
  | upstreamFailed (message : String)
  | badUpstreamJson
deriving DecidableEq

/-- Modelled from the spec for the SDK steps (§4.3 dispatch algorithm): look
the tool up, validate the arguments (failures never reach the upstream), then
run the handler — which issues exactly one upstream call and wraps the result.
`upstream` is the network oracle giving each request's (status, body text);
the second component collects the upstream calls actually issued. -/
def dispatch (toolName : String) (args : Args) (apiKey : String)
    (upstream : UpstreamRequest → Nat × String) : DispatchOutcome × List UpstreamRequest :=
  match toolSchemas.find? (fun t => t.name = toolName) with
  | none => (.unknownTool, [])
  | some sch =>
    if validateArgs sch.params args then
      match routeTool toolName args apiKey with
      | none => (.unknownTool, [])
      | some req =>
        let resp := upstream req
        (match gisHandleResponse resp.1 resp.2 with
         | .ok data => .success (mkEnvelope data)
         | .error (.apiError m) => .upstreamFailed m
         | .error .badJson => .badUpstreamJson,
         [req])
    else (.invalidArguments, [])

/-! ### Credential resolvers (one per variant) -/

/-- Worker variant A:
`request.headers.get("x-api-key") ?? url.searchParams.get("key") ?? ""`. -/
def resolveKeyWorkerA (headerApiKey queryKey : Option String) : String :=
  match headerApiKey with
  | some v => v
  | none =>
    match queryKey with
    | some v => v
    | none => ""

/-- Persisted variant:
`url.searchParams.get("key") ?? request.headers.get("x-api-key") ?? ""`. -/
def resolveKeyPersisted (headerApiKey queryKey : Option String) : String :=
  match queryKey with
  | some v => v
  | none =>
    match headerApiKey with
    | some v => v
    | none => ""

/-- Hono variants (both): `c.req.query("key") ?? c.req.header("x-api-key") ?? ""`. -/
def resolveKeyHono (headerApiKey queryKey : Option String) : String :=
  match queryKey with
  | some v => v
  | none =>
    match headerApiKey with
    | some v => v
    | none => ""

/-- Header-only variant: `request.headers.get("x-api-key") ?? ""`. -/
def resolveKeyHeaderOnly (headerApiKey : Option String) : String :=
  headerApiKey.getD ""

/-! ### Routers (the top-level `fetch` handlers) -/

structure HttpRequest where
  method : String
  path : String
  headerApiKey : Option String
  queryKey : Option String
deriving DecidableEq

inductive GatewayResponse where
  | preflight
  | info (body : String)
  | unauthorized (status : Nat) (body : String)
  | serveMcp (propsApiKey : String)
  | serveSse (propsApiKey : String)
  | notFound (status : Nat)
deriving DecidableEq

def infoBodyA : String :=
  jstrPretty (Json.obj
    [("name", .str "gis.ph MCP Server"), ("version", .str "1.0.0"),
     ("auth", .str "Pass your gis.ph API key via x-api-key header or ?key= query param"),
     ("endpoints", .obj [("http", .str "https://mcp.gis.ph/mcp"),
                         ("sse", .str "https://mcp.gis.ph/sse")])])

def missingKeyBodyA : String :=
  jstr (Json.obj
    [("error", .str "Missing API key."),
     ("message", .str "Provide your gis.ph API key via x-api-key header or ?key= query param.")])

/-- The worker variant A `fetch` router: preflight, info path, credential
gate, then transport selection by path. -/
def workerFetchA (r : HttpRequest) : GatewayResponse :=
  if r.method = "OPTIONS" then .preflight
  else if r.path = "/" then .info infoBodyA
  else
    let apiKey := resolveKeyWorkerA r.headerApiKey r.queryKey
    if apiKey = "" then .unauthorized 401 missingKeyBodyA
    else if r.path = "/mcp" then .serveMcp apiKey
    else if r.path = "/sse" ∨ r.path = "/sse/message" then .serveSse apiKey
    else .notFound 404

def infoBodyHdr : String :=
  jstr (Json.obj [("name", .str "gis.ph MCP Server"), ("version", .str "1.0.0")])

def missingKeyBodyHdr : String :=
  jstr (Json.obj [("error", .str "Missing x-api-key header. Provide your gis.ph API key.")])

/-- The header-only variant's `fetch` router: the credential gate runs first
and exempts only the root path (there is no preflight branch in this
variant). -/
def workerFetchHeaderOnly (r : HttpRequest) : GatewayResponse :=
  let apiKey := resolveKeyHeaderOnly r.headerApiKey
  if apiKey = "" ∧ r.path ≠ "/" then .unauthorized 401 missingKeyBodyHdr
  else if r.path = "/" then .info infoBodyHdr
  else if r.path = "/sse" ∨ r.path = "/sse/message" then .serveSse apiKey
  else if r.path = "/mcp" then .serveMcp apiKey
  else .notFound 404

def infoBodyPersisted : String :=
  jstrPretty (Json.obj
    [("name", .str "gis.ph MCP Server"), ("version", .str "1.0.0"),
     ("auth", .str "Pass your gis.ph API key via ?key= query param or x-api-key header"),
     ("endpoints", .obj [("sse", .str "https://mcp.gis.ph/sse?key=YOUR_KEY")])])

def missingKeyBodyPersisted : String :=
  jstr (Json.obj [("error", .str "Missing API key. Add ?key=YOUR_KEY to the URL.")])

/-- The persisted variant's `fetch` router. -/
def workerFetchPersisted (r : HttpRequest) : GatewayResponse :=
  if r.method = "OPTIONS" then .preflight
  else if r.path = "/" then .info infoBodyPersisted
  else
    let apiKey := resolveKeyPersisted r.headerApiKey r.queryKey
    if apiKey = "" then .unauthorized 401 missingKeyBodyPersisted
    else if r.path = "/sse" ∨ r.path = "/sse/message" then .serveSse apiKey
    else if r.path = "/mcp" then .serveMcp apiKey
    else .notFound 404

/-! ### The persisted session (`McpAgent` with `State { apiKey }`) -/

/-- Initial persisted state: `initialState: State = { apiKey: "" }`. -/
def initialStateKey : String := ""

/-- The persisted variant's `init`:
`if (this.props.apiKey) { this.setState({ apiKey: this.props.apiKey }) }` —
a truthy (non-empty) per-connect credential overwrites the stored state, an
empty one leaves it unchanged. -/
def persistedInit (propsApiKey stateApiKey : String) : String :=
  if propsApiKey ≠ "" then propsApiKey else stateApiKey

/-- The upstream request of the persisted variant's `get_provinces` handler,
which reads `this.state.apiKey`. -/
def persistedGetProvincesRequest (stateApiKey : String) : UpstreamRequest :=
  gisApiRequestPersisted "/provinces" stateApiKey none

/-- The upstream request of the persisted variant's `get_province` handler. -/
def persistedGetProvinceRequest (provinceCode stateApiKey : String) : UpstreamRequest :=
  gisApiRequestPersisted ("/provinces/" ++ provinceCode) stateApiKey none

/-! ### The Hono variant's `debug_key` tool -/

/-- The JSON value `debug_key` serializes:
`{ key_length: apiKey.length, key_preview: apiKey.substring(0, 4) }`. -/
def debugKeyJson (apiKey : String) : Json :=
  .obj [("key_length", .num apiKey.length), ("key_preview", .str (apiKey.take 4))]

/-- The envelope `debug_key` returns:
`{ content: [{ type: "text", text: JSON.stringify({...}) }] }`. -/
def debugKeyEnvelope (apiKey : String) : Envelope := ⟨[.text (jstr (debugKeyJson apiKey))]⟩

/-! ### Query-string rendering (`URLSearchParams.toString()`) -/

def hexUpper (k : Nat) : Char :=
  if k < 10 then Char.ofNat (48 + k) else Char.ofNat (55 + k)

def utf8Bytes (c : Char) : List Nat :=
  let n := c.toNat
  if n < 128 then [n]
  else if n < 2048 then [192 + n / 64, 128 + n % 64]
  else if n < 65536 then [224 + n / 4096, 128 + n / 64 % 64, 128 + n % 64]
  else [240 + n / 262144, 128 + n / 4096 % 64, 128 + n / 64 % 64, 128 + n % 64]

/-- One character under `application/x-www-form-urlencoded` serialization:
alphanumerics and `*-._` verbatim, space as `+`, everything else
percent-encoded per UTF-8 byte. -/
def formEncodeChar (c : Char) : List Char :=
  if c = ' ' then ['+']
  else if c.isAlphanum ∨ c = '*' ∨ c = '-' ∨ c = '.' ∨ c = '_' then [c]
  else (utf8Bytes c).flatMap (fun b => ['%', hexUpper (b / 16), hexUpper (b % 16)])

def formEncode (s : String) : String := ⟨s.data.flatMap formEncodeChar⟩

/-- Rendering `url.searchParams.toString()`: the `key=value` pairs joined with `&`. -/
def renderQuery (ps : List (String × String)) : String :=
  ⟨List.intercalate ['&'] (ps.map (fun p => (formEncode p.1).data ++ '=' :: (formEncode p.2).data))⟩

/-- Whether a built request's query carries the given key. -/
def queryHasKey (req : UpstreamRequest) (key : String) : Bool :=
  req.query.any (fun p => p.1 = key)

/-- Recover the key length from the `debug_key` text (the digit run after the
fixed 14-character head `{"key_length":`). -/
def dbgDecodeLen (cs : List Char) : Nat := digitsToNat (takeDigits (cs.drop 14)).1

/-- Recover the key preview from the `debug_key` text (the string literal
after the 16 characters `,"key_preview":"` that follow the digits). -/
def dbgDecodePreview (cs : List Char) : Option (List Char) :=
  (strBody ((takeDigits (cs.drop 14)).2.drop 16)).map (fun p => p.1)

theorem digitChar10_spec (k : Nat) (h : k < 10) :
    isDigitCh (digitChar10 k) = true ∧ (digitChar10 k).toNat = 48 + k := by
  interval_cases k <;> exact ⟨by decide, by decide⟩

theorem natDigits_all_digits (n : Nat) : ∀ c ∈ natDigits n, isDigitCh c = true := by
  induction n using Nat.strong_induction_on with
  | _ n ih =>
    rw [natDigits]
    by_cases h : n < 10
    · simp only [if_pos h, List.mem_singleton]
      rintro c rfl
      exact (digitChar10_spec n h).1
    · simp only [if_neg h, List.mem_append, List.mem_singleton]
      rintro c (hc | rfl)
      · exact ih (n / 10) (Nat.div_lt_self (by omega) (by omega)) c hc
      · exact (digitChar10_spec (n % 10) (Nat.mod_lt _ (by omega))).1

theorem natDigits_ne_nil (n : Nat) : natDigits n ≠ [] := by
  rw [natDigits]
  by_cases h : n < 10 <;> simp [h]

theorem digitsToNat_natDigits (n : Nat) : digitsToNat (natDigits n) = n := by
  induction n using Nat.strong_induction_on with
  | _ n ih =>
    rw [natDigits]
    by_cases h : n < 10
    · simp only [if_pos h, digitsToNat, List.foldl_cons, List.foldl_nil]
      rw [(digitChar10_spec n h).2]
      omega
    · simp only [if_neg h, digitsToNat, List.foldl_append, List.foldl_cons, List.foldl_nil]
      have hrec := ih (n / 10) (Nat.div_lt_self (by omega) (by omega))
      simp only [digitsToNat] at hrec
      rw [hrec, (digitChar10_spec (n % 10) (Nat.mod_lt _ (by omega))).2]
      omega

theorem takeDigits_stop {cs : List Char} (h : noDigitHead cs = true) :
    takeDigits cs = ([], cs) := by
  match cs with
  | [] => rfl
  | c :: t =>
    simp only [noDigitHead, Bool.not_eq_true'] at h
    simp [takeDigits, h]

theorem takeDigits_run (ds : List Char) (hds : ∀ c ∈ ds, isDigitCh c = true)
    (rest : List Char) (hrest : noDigitHead rest = true) :
    takeDigits (ds ++ rest) = (ds, rest) := by
  induction ds with
  | nil => simpa using takeDigits_stop hrest
  | cons c t ih =>
    have hc : isDigitCh c = true := hds c (by simp)
    have ht := ih (fun x hx => hds x (by simp [hx]))
    simp [takeDigits, hc, ht]

theorem natDigits_head (n : Nat) :
    ∃ c t, natDigits n = c :: t ∧ isDigitCh c = true := by
  match h : natDigits n with
  | [] => exact absurd h (natDigits_ne_nil n)
  | c :: t =>
    refine ⟨c, t, rfl, natDigits_all_digits n c ?_⟩
    rw [h]; exact List.mem_cons_self c t

theorem hexv_hexChar (k : Nat) (h : k < 16) : hexv (hexChar k) = some k := by
  interval_cases k <;> decide

/-- Reading one escaped character undoes `escChar`. -/
theorem strBody_escChar (c : Char) (z : List Char) :
    strBody (escChar c ++ z)
      = match strBody z with
        | some (cs, rest) => some (c :: cs, rest)
        | none => none := by
  by_cases h1 : c = '"'
  · subst h1; rfl
  by_cases h2 : c = '\\'
  · subst h2; rfl
  by_cases h3 : c = '\n'
  · subst h3; rfl
  by_cases h4 : c = '\r'
  · subst h4; rfl
  by_cases h5 : c = '\t'
  · subst h5; rfl
  by_cases h6 : c = '\x08'
  · subst h6; rfl
  by_cases h7 : c = '\x0c'
  · subst h7; rfl
  by_cases h8 : c.toNat < 32
  · have hlo : c.toNat % 16 < 16 := Nat.mod_lt _ (by omega)
    have hhi : c.toNat / 16 < 16 := by omega
    simp only [escChar, if_neg h1, if_neg h2, if_neg h3, if_neg h4, if_neg h5, if_neg h6,
      if_neg h7, if_pos h8, List.cons_append, List.nil_append]
    show strBody ('\\' :: 'u' :: '0' :: '0' :: hexChar (c.toNat / 16) :: hexChar (c.toNat % 16) :: z) = _
    simp only [strBody, hexv_hexChar _ hhi, hexv_hexChar _ hlo,
      show hexv '0' = some 0 from rfl]
    have harith : ((0 * 16 + 0) * 16 + c.toNat / 16) * 16 + c.toNat % 16 = c.toNat := by omega
    rw [harith, Char.ofNat_toNat]
  · simp only [escChar, if_neg h1, if_neg h2, if_neg h3, if_neg h4, if_neg h5, if_neg h6,
      if_neg h7, if_neg h8, List.cons_append, List.nil_append]
    rw [strBody.eq_def]
    split
    · simp_all
    · simp_all
    · simp_all
    · rename_i heq; rw [List.cons_eq_cons] at heq; exact absurd heq.1 h2
    · rename_i heq
      injection heq with h9 h10
      subst h9; subst h10
      rfl

/-- The string codec round-trip: reading an escaped run recovers it and stops
at the closing quote. -/
theorem strBody_escStr (cs : List Char) (rest : List Char) :
    strBody (escStr cs ++ '"' :: rest) = some (cs, rest) := by
  induction cs with
  | nil => rfl
  | cons c t ih =>
    have hsplit : escStr (c :: t) ++ '"' :: rest = escChar c ++ (escStr t ++ '"' :: rest) := by
      simp [escStr, List.flatMap_cons, List.append_assoc]
    rw [hsplit, strBody_escChar, ih]

/-! ### Round-trip infrastructure -/

theorem dropWs_cons_not (c : Char) (t : List Char) (h : isWsCh c = false) :
    dropWs (c :: t) = c :: t := by
  simp [dropWs, h]

theorem dropWs_ws (c : Char) (t : List Char) (h : isWsCh c = true) :
    dropWs (c :: t) = dropWs t := by
  simp [dropWs, h]

theorem dropWs_pad (k : Nat) (x : List Char) : dropWs (pad k ++ x) = dropWs x := by
  induction k with
  | zero => rfl
  | succ n ih =>
    show dropWs (' ' :: (pad n ++ x)) = dropWs x
    rw [dropWs_ws ' ' _ (by decide), ih]

theorem digit_ne {c d : Char} (h : isDigitCh c = true) (hd : isDigitCh d = false) :
    c ≠ d := by
  intro he; subst he; simp [h] at hd

theorem digit_not_ws {c : Char} (h : isDigitCh c = true) : isWsCh c = false := by
  simp only [isWsCh, Bool.or_eq_false_iff, decide_eq_false_iff_not]
  exact ⟨⟨⟨digit_ne h (by decide), digit_ne h (by decide)⟩, digit_ne h (by decide)⟩,
    digit_ne h (by decide)⟩

/-- The first character of a serialized integer (a minus sign or a digit). -/
theorem intChars_head (i : Int) :
    ∃ c t, intChars i = c :: t ∧ (c = '-' ∨ isDigitCh c = true) := by
  by_cases hneg : i < 0
  · exact ⟨'-', natDigits i.natAbs, by simp [intChars, hneg], Or.inl rfl⟩
  · obtain ⟨c, t, hct, hc⟩ := natDigits_head i.natAbs
    exact ⟨c, t, by simp [intChars, hneg, hct], Or.inr hc⟩

/-- The number codec round-trip: `parseNum` inverts `intChars` whenever the
remainder does not begin with a digit. -/
theorem parseNum_intChars (i : Int) (rest : List Char) (hr : noDigitHead rest = true) :
    parseNum (intChars i ++ rest) = some (i, rest) := by
  obtain ⟨c, t, hct, hc⟩ := natDigits_head i.natAbs
  have htk : takeDigits (c :: t ++ rest) = (c :: t, rest) := by
    have := takeDigits_run (natDigits i.natAbs) (natDigits_all_digits _) rest hr
    rwa [hct] at this
  have hval : digitsToNat (c :: t) = i.natAbs := by
    rw [← hct, digitsToNat_natDigits]
  by_cases hneg : i < 0
  · have harg : intChars i ++ rest = '-' :: (c :: t ++ rest) := by
      simp [intChars, hneg, hct]
    rw [harg]
    simp only [parseNum, htk, hval, if_true, ite_true, reduceIte]
    rw [Int.natCast_natAbs, abs_of_neg hneg, neg_neg]
  · have hcm : c ≠ '-' := digit_ne hc (by decide)
    have harg : intChars i ++ rest = c :: (t ++ rest) := by
      simp [intChars, hneg, hct]
    rw [harg]
    have htk2 : takeDigits (c :: (t ++ rest)) = (c :: t, rest) := by
      rwa [List.cons_append] at htk
    simp only [parseNum, if_neg hcm, htk2, hval]
    rw [Int.natCast_natAbs, abs_of_nonneg (by omega)]

/-- Every serialized value begins with a character that is not whitespace and
closes no bracket, so `dropWs` leaves it alone and the bracket tests in the
parser fail on it. -/
theorem ppL_head (lvl : Nat) (j : Json) :
    ∃ c t, ppL lvl j = c :: t ∧ isWsCh c = false ∧ c ≠ ']' ∧ c ≠ rbrace := by
  cases j with
  | null => exact ⟨'n', _, rfl, by refine ⟨?_, ?_, ?_⟩ <;> decide⟩
  | bool b =>
    cases b with
    | true => exact ⟨'t', _, rfl, by refine ⟨?_, ?_, ?_⟩ <;> decide⟩
    | false => exact ⟨'f', _, rfl, by refine ⟨?_, ?_, ?_⟩ <;> decide⟩
  | num i =>
    obtain ⟨c, t, hct, hc⟩ := intChars_head i
    refine ⟨c, t, by simp [ppL, hct], ?_, ?_, ?_⟩
    · cases hc with
      | inl h => subst h; decide
      | inr h => exact digit_not_ws h
    · cases hc with
      | inl h => subst h; decide
      | inr h => exact digit_ne h (by decide)
    · cases hc with
      | inl h => subst h; decide
      | inr h => exact digit_ne h (by decide)
  | str s => exact ⟨'"', _, rfl, by refine ⟨?_, ?_, ?_⟩ <;> decide⟩
  | arr items =>
    cases items with
    | nil => exact ⟨'[', _, rfl, by refine ⟨?_, ?_, ?_⟩ <;> decide⟩
    | cons x xs => exact ⟨'[', _, rfl, by refine ⟨?_, ?_, ?_⟩ <;> decide⟩
  | obj fields =>
    cases fields with
    | nil => exact ⟨lbrace, _, rfl, by refine ⟨?_, ?_, ?_⟩ <;> decide⟩
    | cons f fs => exact ⟨lbrace, _, rfl, by refine ⟨?_, ?_, ?_⟩ <;> decide⟩

theorem dropWs_ppL (lvl : Nat) (j : Json) (x : List Char) :
    dropWs (ppL lvl j ++ x) = ppL lvl j ++ x := by
  obtain ⟨c, t, hct, hws, _, _⟩ := ppL_head lvl j
  rw [hct, List.cons_append, dropWs_cons_not _ _ hws]

/-! ### Parser step lemmas -/

theorem parseVal_quote (f : Nat) (r : List Char) :
    parseVal (f + 1) ('"' :: r)
      = match strBody r with
        | some (cs2, r2) => some (.str ⟨cs2⟩, r2)
        | none => none := rfl

theorem parseVal_lbracket (f : Nat) (r : List Char) :
    parseVal (f + 1) ('[' :: r)
      = match dropWs r with
        | [] => none
        | c :: r2 =>
          if c = ']' then some (.arr [], r2)
          else
            match parseItems f (c :: r2) with
            | some (vs, r3) => some (.arr vs, r3)
            | none => none := rfl

theorem parseVal_lbrace (f : Nat) (r : List Char) :
    parseVal (f + 1) (lbrace :: r)
      = match dropWs r with
        | [] => none
        | c2 :: r2 =>
          if c2 = rbrace then some (.obj [], r2)
          else
            match parseFields f (c2 :: r2) with
            | some (ms, r3) => some (.obj ms, r3)
            | none => none := rfl

theorem parseItems_succ (f : Nat) (cs : List Char) :
    parseItems (f + 1) cs
      = match parseVal f cs with
        | none => none
        | some (v, r) =>
          match dropWs r with
          | [] => none
          | c :: r2 =>
            if c = ',' then
              match parseItems f (dropWs r2) with
              | some (vs, r3) => some (v :: vs, r3)
              | none => none
            else if c = ']' then some ([v], r2)
            else none := rfl

theorem parseFields_succ (f : Nat) (cs : List Char) :
    parseFields (f + 1) cs
      = match dropWs cs with
        | '"' :: r =>
          match strBody r with
          | none => none
          | some (kcs, r1) =>
            match dropWs r1 with
            | [] => none
            | c :: r2 =>
              if c = ':' then
                match parseVal f (dropWs r2) with
                | none => none
                | some (v, r3) =>
                  match dropWs r3 with
                  | [] => none
                  | c2 :: r4 =>
                    if c2 = ',' then
                      match parseFields f (dropWs r4) with
                      | some (ms, r5) => some ((⟨kcs⟩, v) :: ms, r5)
                      | none => none
                    else if c2 = rbrace then some ([(⟨kcs⟩, v)], r4)
                    else none
              else none
        | _ => none := rfl

/-- A value whose input begins like a number parses through `parseNum`. -/
theorem parseVal_numeric (f : Nat) (c0 : Char) (t : List Char)
    (hws : isWsCh c0 = false)
    (hn : c0 ≠ 'n') (ht : c0 ≠ 't') (hf2 : c0 ≠ 'f') (hq : c0 ≠ '"') (hbk : c0 ≠ '[')
    (hbc : c0 ≠ lbrace) (hg : (c0 = '-' || isDigitCh c0) = true) :
    parseVal (f + 1) (c0 :: t)
      = match parseNum (c0 :: t) with
        | some (i, r2) => some (.num i, r2)
        | none => none := by
  have hdw : dropWs (c0 :: t) = c0 :: t := dropWs_cons_not _ _ hws
  simp only [parseVal, hdw]
  simp [hn, ht, hf2, hq, hbk, hbc, hg]

/-- The array branch: after the opening bracket, its newline and the first
element's indentation, the parser hands the element list to `parseItems`. -/
theorem parseVal_arr_step (f lvl : Nat) (x : Json) (xs : List Json) (z : List Char) :
    parseVal (f + 1) ('[' :: '\n' :: (pad (2 * lvl + 2) ++ (ppL (lvl + 1) x ++ (ppItems (lvl + 1) xs ++ z))))
      = match parseItems f (ppL (lvl + 1) x ++ (ppItems (lvl + 1) xs ++ z)) with
        | some (vs, r3) => some (.arr vs, r3)
        | none => none := by
  rw [parseVal_lbracket]
  have hd : dropWs ('\n' :: (pad (2 * lvl + 2) ++ (ppL (lvl + 1) x ++ (ppItems (lvl + 1) xs ++ z))))
      = ppL (lvl + 1) x ++ (ppItems (lvl + 1) xs ++ z) := by
    rw [dropWs_ws '\n' _ (by decide), dropWs_pad, dropWs_ppL]
  rw [hd]
  obtain ⟨c, t, hct, _, hbr, _⟩ := ppL_head (lvl + 1) x
  rw [hct, List.cons_append]
  simp only [if_neg hbr]

/-- The object branch: after the opening brace, its newline and the first
member's indentation, the parser hands the member list to `parseFields`. -/
theorem parseVal_obj_step (f lvl : Nat) (k : String) (v : Json)
    (fs : List (String × Json)) (z : List Char) :
    parseVal (f + 1)
        (lbrace :: '\n' :: (pad (2 * lvl + 2) ++ (ppField (lvl + 1) (k, v) ++ (ppFields (lvl + 1) fs ++ z))))
      = match parseFields f (ppField (lvl + 1) (k, v) ++ (ppFields (lvl + 1) fs ++ z)) with
        | some (ms, r3) => some (.obj ms, r3)
        | none => none := by
  rw [parseVal_lbrace]
  have hfield : ppField (lvl + 1) (k, v) ++ (ppFields (lvl + 1) fs ++ z)
      = '"' :: (escStr k.data ++ ['"'] ++ (':' :: ' ' :: ppL (lvl + 1) v ++ (ppFields (lvl + 1) fs ++ z))) := by
    simp [ppField, strLit, List.append_assoc]
  have hd : dropWs ('\n' :: (pad (2 * lvl + 2) ++ (ppField (lvl + 1) (k, v) ++ (ppFields (lvl + 1) fs ++ z))))
      = ppField (lvl + 1) (k, v) ++ (ppFields (lvl + 1) fs ++ z) := by
    rw [dropWs_ws '\n' _ (by decide), dropWs_pad, hfield, dropWs_cons_not '"' _ (by decide)]
  rw [hd, hfield]
  simp only [if_neg (show ('"' : Char) ≠ rbrace by decide)]

/-- The first character of a serialized integer, with every side condition the
parser's branch selection needs. -/
theorem numeric_head_props (i : Int) :
    ∃ c t, intChars i = c :: t ∧ isWsCh c = false ∧ c ≠ 'n' ∧ c ≠ 't' ∧ c ≠ 'f' ∧
      c ≠ '"' ∧ c ≠ '[' ∧ c ≠ lbrace ∧ (c = '-' || isDigitCh c) = true := by
  obtain ⟨c, t, hct, hc⟩ := intChars_head i
  cases hc with
  | inl h =>
    subst h
    exact ⟨'-', t, hct, by decide, by decide, by decide, by decide, by decide, by decide,
      by decide, by simp⟩
  | inr h =>
    exact ⟨c, t, hct, digit_not_ws h, digit_ne h (by decide), digit_ne h (by decide),
      digit_ne h (by decide), digit_ne h (by decide), digit_ne h (by decide),
      digit_ne h (by decide), by simp [h]⟩

/-! ### The codec round-trip for the pretty serialization -/

mutual
theorem rt_val : ∀ (j : Json) (lvl fuel : Nat) (rest : List Char),
    (ppL lvl j).length < fuel → noDigitHead rest = true →
    parseVal fuel (ppL lvl j ++ rest) = some (j, rest)
  | .null, lvl, fuel, rest, hf, _ => by
    cases fuel with
    | zero => exact absurd hf (Nat.not_lt_zero _)
    | succ f => rfl
  | .bool true, lvl, fuel, rest, hf, _ => by
    cases fuel with
    | zero => exact absurd hf (Nat.not_lt_zero _)
    | succ f => rfl
  | .bool false, lvl, fuel, rest, hf, _ => by
    cases fuel with
    | zero => exact absurd hf (Nat.not_lt_zero _)
    | succ f => rfl
  | .num i, lvl, fuel, rest, hf, hr => by
    cases fuel with
    | zero => exact absurd hf (Nat.not_lt_zero _)
    | succ f =>
      obtain ⟨c, t, hct, hws, h1, h2, h3, h4, h5, h6, hg⟩ := numeric_head_props i
      have harg : ppL lvl (.num i) ++ rest = c :: (t ++ rest) := by
        show intChars i ++ rest = _
        rw [hct, List.cons_append]
      rw [harg, parseVal_numeric f c (t ++ rest) hws h1 h2 h3 h4 h5 h6 hg,
        show c :: (t ++ rest) = intChars i ++ rest from by rw [hct, List.cons_append],
        parseNum_intChars i rest hr]
  | .str s, lvl, fuel, rest, hf, _ => by
    cases fuel with
    | zero => exact absurd hf (Nat.not_lt_zero _)
    | succ f =>
      have harg : ppL lvl (.str s) ++ rest = '"' :: (escStr s.data ++ '"' :: rest) := by
        show strLit s ++ rest = _
        simp [strLit, List.append_assoc]
      rw [harg, parseVal_quote, strBody_escStr]
  | .arr [], lvl, fuel, rest, hf, _ => by
    cases fuel with
    | zero => exact absurd hf (Nat.not_lt_zero _)
    | succ f => rfl
  | .arr (x :: xs), lvl, fuel, rest, hf, _ => by
    cases fuel with
    | zero => exact absurd hf (Nat.not_lt_zero _)
    | succ f =>
      have harg : ppL lvl (.arr (x :: xs)) ++ rest
          = '[' :: '\n' :: (pad (2 * lvl + 2) ++ (ppL (lvl + 1) x
              ++ (ppItems (lvl + 1) xs ++ ('\n' :: (pad (2 * lvl) ++ (']' :: rest)))))) := by
        show ('[' :: '\n' :: (pad (2 * lvl + 2) ++ ppL (lvl + 1) x ++ ppItems (lvl + 1) xs
            ++ '\n' :: (pad (2 * lvl) ++ [']']))) ++ rest = _
        simp [List.append_assoc]
      have hfu : (ppL (lvl + 1) x).length + (ppItems (lvl + 1) xs).length + 1 < f := by
        have hlen : (ppL lvl (.arr (x :: xs))).length
            = 2 + (2 * lvl + 2) + (ppL (lvl + 1) x).length + (ppItems (lvl + 1) xs).length
              + 1 + (2 * lvl + 1) := by
          show ('[' :: '\n' :: (pad (2 * lvl + 2) ++ ppL (lvl + 1) x ++ ppItems (lvl + 1) xs
              ++ '\n' :: (pad (2 * lvl) ++ [']']))).length = _
          simp [pad, List.length_append]
          omega
        rw [hlen] at hf
        omega
      have hclos1 : dropWs ('\n' :: (pad (2 * lvl) ++ (']' :: rest))) = ']' :: rest := by
        rw [dropWs_ws '\n' _ (by decide), dropWs_pad, dropWs_cons_not ']' _ (by decide)]
      rw [harg, parseVal_arr_step f lvl x xs ('\n' :: (pad (2 * lvl) ++ (']' :: rest))),
        rt_items x xs (lvl + 1) f ('\n' :: (pad (2 * lvl) ++ (']' :: rest))) rest hfu hclos1 rfl]
  | .obj [], lvl, fuel, rest, hf, _ => by
    cases fuel with
    | zero => exact absurd hf (Nat.not_lt_zero _)
    | succ f =>
      have harg : ppL lvl (.obj []) ++ rest = lbrace :: (rbrace :: rest) := rfl
      rw [harg, parseVal_lbrace, dropWs_cons_not rbrace _ (by decide)]
      simp
  | .obj ((k, v) :: fs), lvl, fuel, rest, hf, _ => by
    cases fuel with
    | zero => exact absurd hf (Nat.not_lt_zero _)
    | succ f =>
      have harg : ppL lvl (.obj ((k, v) :: fs)) ++ rest
          = lbrace :: '\n' :: (pad (2 * lvl + 2) ++ (ppField (lvl + 1) (k, v)
              ++ (ppFields (lvl + 1) fs ++ ('\n' :: (pad (2 * lvl) ++ (rbrace :: rest)))))) := by
        show (lbrace :: '\n' :: (pad (2 * lvl + 2) ++ ppField (lvl + 1) (k, v)
            ++ ppFields (lvl + 1) fs ++ '\n' :: (pad (2 * lvl) ++ [rbrace]))) ++ rest = _
        simp [List.append_assoc]
      have hfu : (ppField (lvl + 1) (k, v)).length + (ppFields (lvl + 1) fs).length + 1 < f := by
        have hlen : (ppL lvl (.obj ((k, v) :: fs))).length
            = 2 + (2 * lvl + 2) + (ppField (lvl + 1) (k, v)).length
              + (ppFields (lvl + 1) fs).length + 1 + (2 * lvl + 1) := by
          show (lbrace :: '\n' :: (pad (2 * lvl + 2) ++ ppField (lvl + 1) (k, v)
              ++ ppFields (lvl + 1) fs ++ '\n' :: (pad (2 * lvl) ++ [rbrace]))).length = _
          simp [pad, List.length_append]
          omega
        rw [hlen] at hf
        omega
      have hclos1 : dropWs ('\n' :: (pad (2 * lvl) ++ (rbrace :: rest))) = rbrace :: rest := by
        rw [dropWs_ws '\n' _ (by decide), dropWs_pad, dropWs_cons_not rbrace _ (by decide)]
      rw [harg, parseVal_obj_step f lvl k v fs ('\n' :: (pad (2 * lvl) ++ (rbrace :: rest))),
        rt_fields k v fs (lvl + 1) f ('\n' :: (pad (2 * lvl) ++ (rbrace :: rest))) rest hfu hclos1 rfl]
termination_by j _ _ _ _ _ => sizeOf j
theorem rt_items : ∀ (x : Json) (xs : List Json) (lvl fuel : Nat) (clos rest : List Char),
    (ppL lvl x).length + (ppItems lvl xs).length + 1 < fuel →
    dropWs clos = ']' :: rest →
    noDigitHead clos = true →
    parseItems fuel (ppL lvl x ++ (ppItems lvl xs ++ clos)) = some (x :: xs, rest)
  | x, [], lvl, fuel, clos, rest, hfu, hc1, hc2 => by
    cases fuel with
    | zero => exact absurd hfu (Nat.not_lt_zero _)
    | succ f =>
      have hx : (ppL lvl x).length < f := by
        simp only [ppItems, List.length_nil] at hfu
        omega
      have harg : ppL lvl x ++ (ppItems lvl [] ++ clos) = ppL lvl x ++ clos := by
        simp [ppItems]
      rw [parseItems_succ, harg, rt_val x lvl f clos hx hc2]
      simp [hc1]
  | x, y :: ys, lvl, fuel, clos, rest, hfu, hc1, hc2 => by
    cases fuel with
    | zero => exact absurd hfu (Nat.not_lt_zero _)
    | succ f =>
      have hlen : (ppItems lvl (y :: ys)).length
          = 2 + 2 * lvl + (ppL lvl y).length + (ppItems lvl ys).length := by
        show (',' :: '\n' :: (pad (2 * lvl) ++ ppL lvl y ++ ppItems lvl ys)).length = _
        simp [pad, List.length_append]
        omega
      have hx : (ppL lvl x).length < f := by omega
      have hy : (ppL lvl y).length + (ppItems lvl ys).length + 1 < f := by
        rw [hlen] at hfu
        omega
      have hnext : ppItems lvl (y :: ys) ++ clos
          = ',' :: ('\n' :: (pad (2 * lvl) ++ (ppL lvl y ++ (ppItems lvl ys ++ clos)))) := by
        show (',' :: '\n' :: (pad (2 * lvl) ++ ppL lvl y ++ ppItems lvl ys)) ++ clos = _
        simp [List.append_assoc]
      have hv := rt_val x lvl f (ppItems lvl (y :: ys) ++ clos) hx (by rw [hnext]; rfl)
      have hdw : dropWs ('\n' :: (pad (2 * lvl) ++ (ppL lvl y ++ (ppItems lvl ys ++ clos))))
          = ppL lvl y ++ (ppItems lvl ys ++ clos) := by
        rw [dropWs_ws '\n' _ (by decide), dropWs_pad, dropWs_ppL]
      have hdwA : dropWs (ppItems lvl (y :: ys) ++ clos)
          = ',' :: ('\n' :: (pad (2 * lvl) ++ (ppL lvl y ++ (ppItems lvl ys ++ clos)))) := by
        rw [hnext]
        exact dropWs_cons_not ',' _ (by decide)
      have hrec2 := rt_items y ys lvl f clos rest hy hc1 hc2
      rw [parseItems_succ, hv]
      simp [hdwA, hdw, hrec2]
termination_by x xs _ _ _ _ _ _ _ => 1 + sizeOf x + sizeOf xs
theorem rt_fields : ∀ (k : String) (v : Json) (fs : List (String × Json))
    (lvl fuel : Nat) (clos rest : List Char),
    (ppField lvl (k, v)).length + (ppFields lvl fs).length + 1 < fuel →
    dropWs clos = rbrace :: rest →
    noDigitHead clos = true →
    parseFields fuel (ppField lvl (k, v) ++ (ppFields lvl fs ++ clos)) = some ((k, v) :: fs, rest)
  | k, v, [], lvl, fuel, clos, rest, hfu, hc1, hc2 => by
    cases fuel with
    | zero => exact absurd hfu (Nat.not_lt_zero _)
    | succ f =>
      have hvlen : (ppL lvl v).length < f := by
        have : (ppField lvl (k, v)).length = (strLit k).length + 2 + (ppL lvl v).length := by
          show (strLit k ++ ':' :: ' ' :: ppL lvl v).length = _
          simp [List.length_append]
          omega
        rw [this] at hfu
        omega
      have harg : ppField lvl (k, v) ++ (ppFields lvl [] ++ clos)
          = '"' :: (escStr k.data ++ ('"' :: (':' :: ' ' :: (ppL lvl v ++ clos)))) := by
        show (strLit k ++ ':' :: ' ' :: ppL lvl v) ++ (ppFields lvl [] ++ clos) = _
        simp [strLit, ppFields, List.append_assoc]
      have hdw2 : dropWs (' ' :: (ppL lvl v ++ clos)) = ppL lvl v ++ clos := by
        rw [dropWs_ws ' ' _ (by decide), dropWs_ppL]
      have hsb : strBody (escStr k.data ++ ('"' :: (':' :: ' ' :: (ppL lvl v ++ clos))))
          = some (k.data, ':' :: ' ' :: (ppL lvl v ++ clos)) := strBody_escStr _ _
      have hdwc : dropWs (':' :: ' ' :: (ppL lvl v ++ clos)) = ':' :: ' ' :: (ppL lvl v ++ clos) :=
        dropWs_cons_not ':' _ (by decide)
      have hv := rt_val v lvl f clos hvlen hc2
      have hbc : rbrace ≠ ',' := by decide
      rw [harg, parseFields_succ, dropWs_cons_not '"' _ (by decide)]
      simp [hsb, hdwc, hdw2, hv, hc1, hbc]
  | k, v, (k2, v2) :: fs2, lvl, fuel, clos, rest, hfu, hc1, hc2 => by
    cases fuel with
    | zero => exact absurd hfu (Nat.not_lt_zero _)
    | succ f =>
      have hflen : (ppFields lvl ((k2, v2) :: fs2)).length
          = 2 + 2 * lvl + (ppField lvl (k2, v2)).length + (ppFields lvl fs2).length := by
        show (',' :: '\n' :: (pad (2 * lvl) ++ ppField lvl (k2, v2) ++ ppFields lvl fs2)).length = _
        simp [pad, List.length_append]
        omega
      have hvlen : (ppL lvl v).length < f := by
        have : (ppField lvl (k, v)).length = (strLit k).length + 2 + (ppL lvl v).length := by
          show (strLit k ++ ':' :: ' ' :: ppL lvl v).length = _
          simp [List.length_append]
          omega
        rw [this] at hfu
        omega
      have hrec : (ppField lvl (k2, v2)).length + (ppFields lvl fs2).length + 1 < f := by
        rw [hflen] at hfu
        omega
      have hnext : ppFields lvl ((k2, v2) :: fs2) ++ clos
          = ',' :: ('\n' :: (pad (2 * lvl) ++ (ppField lvl (k2, v2) ++ (ppFields lvl fs2 ++ clos)))) := by
        show (',' :: '\n' :: (pad (2 * lvl) ++ ppField lvl (k2, v2) ++ ppFields lvl fs2)) ++ clos = _
        simp [List.append_assoc]
      have harg : ppField lvl (k, v) ++ (ppFields lvl ((k2, v2) :: fs2) ++ clos)
          = '"' :: (escStr k.data ++ ('"' :: (':' :: ' ' :: (ppL lvl v
              ++ (ppFields lvl ((k2, v2) :: fs2) ++ clos))))) := by
        show (strLit k ++ ':' :: ' ' :: ppL lvl v) ++ (ppFields lvl ((k2, v2) :: fs2) ++ clos) = _
        simp [strLit, List.append_assoc]
      have hdw2 : dropWs (' ' :: (ppL lvl v ++ (ppFields lvl ((k2, v2) :: fs2) ++ clos)))
          = ppL lvl v ++ (ppFields lvl ((k2, v2) :: fs2) ++ clos) := by
        rw [dropWs_ws ' ' _ (by decide), dropWs_ppL]
      have hfieldhead : ppField lvl (k2, v2) ++ (ppFields lvl fs2 ++ clos)
          = '"' :: (escStr k2.data ++ ['"'] ++ (':' :: ' ' :: ppL lvl v2 ++ (ppFields lvl fs2 ++ clos))) := by
        simp [ppField, strLit, List.append_assoc]
      have hdw3 : dropWs ('\n' :: (pad (2 * lvl) ++ (ppField lvl (k2, v2) ++ (ppFields lvl fs2 ++ clos))))
          = ppField lvl (k2, v2) ++ (ppFields lvl fs2 ++ clos) := by
        rw [dropWs_ws '\n' _ (by decide), dropWs_pad, hfieldhead, dropWs_cons_not '"' _ (by decide)]
      have hv := rt_val v lvl f (ppFields lvl ((k2, v2) :: fs2) ++ clos) hvlen (by rw [hnext]; rfl)
      have hsb : strBody (escStr k.data ++ ('"' :: (':' :: ' ' :: (ppL lvl v
          ++ (ppFields lvl ((k2, v2) :: fs2) ++ clos)))))
          = some (k.data, ':' :: ' ' :: (ppL lvl v ++ (ppFields lvl ((k2, v2) :: fs2) ++ clos))) :=
        strBody_escStr _ _
      have hdwc : dropWs (':' :: ' ' :: (ppL lvl v ++ (ppFields lvl ((k2, v2) :: fs2) ++ clos)))
          = ':' :: ' ' :: (ppL lvl v ++ (ppFields lvl ((k2, v2) :: fs2) ++ clos)) :=
        dropWs_cons_not ':' _ (by decide)
      have hdwB : dropWs (ppFields lvl ((k2, v2) :: fs2) ++ clos)
          = ',' :: ('\n' :: (pad (2 * lvl) ++ (ppField lvl (k2, v2) ++ (ppFields lvl fs2 ++ clos)))) := by
        rw [hnext]
        exact dropWs_cons_not ',' _ (by decide)
      have hrecf := rt_fields k2 v2 fs2 lvl f clos rest hrec hc1 hc2
      rw [harg, parseFields_succ, dropWs_cons_not '"' _ (by decide)]
      simp [hsb, hdwc, hdw2, hdwB, hdw3, hv, hrecf]
termination_by _ v fs _ _ _ _ _ _ _ => 1 + sizeOf v + sizeOf fs
end

/-- Parsing a pretty-serialized value recovers it exactly. -/
theorem jsonParse_jstrPretty (v : Json) : jsonParse (jstrPretty v) = some v := by
  have h := rt_val v 0 ((ppL 0 v).length + 1) [] (by omega) rfl
  rw [List.append_nil] at h
  show (match parseVal ((ppL 0 v).length + 1) (ppL 0 v) with
    | some (j, r) => if dropWs r = [] then some j else none
    | none => none) = some v
  rw [h]
  rfl

/-! ### Claim theorems -/

/-- C1 counterexample: in the persisted-session variant, bind credential
"ABC" for a connection, then bind "XYZ" (non-empty, different) for the same
connection; the claim says the effective credential stays "ABC", but the
`init` step overwrites the state, and the next `get_provinces` invocation
authenticates with `Bearer XYZ`. -/
theorem c1_counterexample :
    persistedInit "XYZ" (persistedInit "ABC" initialStateKey) = "XYZ" ∧
    (persistedGetProvincesRequest
        (persistedInit "XYZ" (persistedInit "ABC" initialStateKey))).headers
      = [("Authorization", "Bearer XYZ")] ∧
    ("XYZ" : String) ≠ "ABC" :=
  ⟨rfl, rfl, by decide⟩

/-- C1 (amended): in the persisted-session variant, a subsequent bind for the
same connection carrying a different non-empty credential K2 replaces the
effective credential — later tool invocations call the upstream with
`Bearer K2`; only a bind carrying an empty credential is a no-op that leaves
the previously bound credential serving. -/
theorem c1_amended (K K2 : String) (hne : K2 ≠ "") :
    persistedInit K2 (persistedInit K initialStateKey) = K2 ∧
    (persistedGetProvincesRequest
        (persistedInit K2 (persistedInit K initialStateKey))).headers
      = [("Authorization", "Bearer " ++ K2)] ∧
    (∀ code, (persistedGetProvinceRequest code
        (persistedInit K2 (persistedInit K initialStateKey))).headers
      = [("Authorization", "Bearer " ++ K2)]) ∧
    persistedInit "" (persistedInit K initialStateKey) = persistedInit K initialStateKey := by
  refine ⟨by simp [persistedInit, hne], ?_, ?_, by simp [persistedInit]⟩
  · simp [persistedInit, hne, persistedGetProvincesRequest, gisApiRequestPersisted]
  · intro code
    simp [persistedInit, hne, persistedGetProvinceRequest, gisApiRequestPersisted]

/-- C1 amended witness at K = "ABC", K2 = "XYZ". -/
theorem c1_amended_witness :
    persistedInit "XYZ" (persistedInit "ABC" initialStateKey) = "XYZ" ∧
    (persistedGetProvinceRequest "0128"
        (persistedInit "XYZ" (persistedInit "ABC" initialStateKey))).headers
      = [("Authorization", "Bearer " ++ "XYZ")] ∧
    persistedInit "" (persistedInit "ABC" initialStateKey) = persistedInit "ABC" initialStateKey :=
  have h := c1_amended "ABC" "XYZ" (by decide)
  ⟨h.1, h.2.2.1 "0128", h.2.2.2⟩

/-- C3 counterexample: with a non-empty header credential "HDR" and a
non-empty query credential "QRY" both present, the persisted variant's and
the Hono variants' resolvers select "QRY", not the header value — so the
header does not have priority in every variant. -/
theorem c3_counterexample :
    resolveKeyPersisted (some "HDR") (some "QRY") = "QRY" ∧
    resolveKeyHono (some "HDR") (some "QRY") = "QRY" ∧
    ("QRY" : String) ≠ "HDR" :=
  ⟨rfl, rfl, by decide⟩

/-- C3 (amended): with both sources present, worker variant A's resolver
selects the header value (and the header-only variant consults only the
header), while the persisted variant's and the Hono variants' resolvers
select the query-parameter value. -/
theorem c3_amended (h q : String) :
    resolveKeyWorkerA (some h) (some q) = h ∧
    resolveKeyHeaderOnly (some h) = h ∧
    resolveKeyPersisted (some h) (some q) = q ∧
    resolveKeyHono (some h) (some q) = q :=
  ⟨rfl, rfl, rfl, rfl⟩

/-- C4: a tool invocation missing a required schema parameter fails as
invalid arguments and issues zero upstream calls (validation runs before the
handler, so the Upstream Client is never reached). -/
theorem c4_missing_required_param (toolName : String) (args : Args) (apiKey : String)
    (upstream : UpstreamRequest → Nat × String) (sch : ToolSchema) (p : ParamSpec)
    (hfind : toolSchemas.find? (fun t => t.name = toolName) = some sch)
    (hp : p ∈ sch.params) (hreq : p.required = true)
    (habsent : argLookup args p.name = none) :
    dispatch toolName args apiKey upstream = (.invalidArguments, []) := by
  have hval : validateArgs sch.params args ≠ true := by
    intro hv
    have hone := List.all_eq_true.mp hv p hp
    simp [habsent, hreq] at hone
  have hval2 : validateArgs sch.params args = false := by
    cases hvb : validateArgs sch.params args
    · rfl
    · exact absurd hvb hval
  simp [dispatch, hfind, hval2]

/-- C4 witness: `get_province` invoked with no arguments. -/
theorem c4_witness :
    dispatch "get_province" [] "ABC" (fun _ => (200, "null")) = (.invalidArguments, []) :=
  c4_missing_required_param "get_province" [] "ABC" (fun _ => (200, "null"))
    ⟨"get_province", "Get details of a specific province by its code",
      [⟨"province_code", true, .str⟩]⟩
    ⟨"province_code", true, .str⟩ (by decide) (by decide) rfl rfl

/-- C7: a request to a credential-protected path (not the informational root,
not a CORS preflight) from which neither the header source nor the query
source yields a non-empty credential gets the structured 401 error, and the
router never reaches a transport (so no Session Context and no upstream
call). -/
theorem c7_missing_credential_401 (r : HttpRequest)
    (hm : r.method ≠ "OPTIONS") (hp : r.path ≠ "/")
    (hhdr : r.headerApiKey.getD "" = "") (hq : r.queryKey.getD "" = "") :
    workerFetchA r = .unauthorized 401 missingKeyBodyA ∧
    workerFetchHeaderOnly r = .unauthorized 401 missingKeyBodyHdr ∧
    ∀ key2, workerFetchA r ≠ .serveMcp key2 ∧ workerFetchA r ≠ .serveSse key2 := by
  have hres : resolveKeyWorkerA r.headerApiKey r.queryKey = "" := by
    cases hH : r.headerApiKey with
    | some v =>
      rw [hH] at hhdr
      simp [resolveKeyWorkerA, Option.getD] at hhdr ⊢
      exact hhdr
    | none =>
      cases hQ : r.queryKey with
      | some w =>
        rw [hQ] at hq
        simp [resolveKeyWorkerA, Option.getD] at hq ⊢
        exact hq
      | none => rfl
  have hresH : resolveKeyHeaderOnly r.headerApiKey = "" := hhdr
  have h1 : workerFetchA r = .unauthorized 401 missingKeyBodyA := by
    simp [workerFetchA, hm, hp, hres]
  refine ⟨h1, ?_, ?_⟩
  · simp [workerFetchHeaderOnly, hresH, hp]
  · intro key2
    rw [h1]
    exact ⟨by simp, by simp⟩

/-- C7 witness: a POST to `/mcp` with no header and no query credential. -/
theorem c7_witness :
    workerFetchA ⟨"POST", "/mcp", none, none⟩ = .unauthorized 401 missingKeyBodyA ∧
    workerFetchHeaderOnly ⟨"POST", "/mcp", none, none⟩
      = .unauthorized 401 missingKeyBodyHdr :=
  ⟨(c7_missing_credential_401 ⟨"POST", "/mcp", none, none⟩
      (by decide) (by decide) rfl rfl).1,
   (c7_missing_credential_401 ⟨"POST", "/mcp", none, none⟩
      (by decide) (by decide) rfl rfl).2.1⟩

/-- C8: `get_province` with province_code "0128" under credential "ABC"
issues exactly one upstream request: a GET to
`https://api.gis.ph/v1/provinces/0128` with no query parameters and the
header `Authorization: Bearer ABC` (plus the variant's Content-Type header),
whatever the upstream answers. -/
theorem c8_get_province_request (upstream : UpstreamRequest → Nat × String) :
    (dispatch "get_province" [("province_code", ArgVal.s "0128")] "ABC" upstream).2
      = [⟨"GET", "https://api.gis.ph/v1/provinces/0128", [],
          [("Authorization", "Bearer ABC"), ("Content-Type", "application/json")]⟩] := by
  rfl

/-- C9: `gisApi` reads every non-2xx response fully as text and fails with an
error message that carries the numeric status and the raw body text (both are
recoverable from the message); a 2xx body is parsed as JSON and returned as
the success value. -/
theorem c9_upstream_response_handling (st : Nat) (body : String) :
    (¬ (200 ≤ st ∧ st ≤ 299) →
      gisHandleResponse st body
          = .error (.apiError ("gis.ph API error " ++ natStr st ++ ": " ++ body)) ∧
      errMsgStatus ("gis.ph API error " ++ natStr st ++ ": " ++ body) = st ∧
      errMsgBody ("gis.ph API error " ++ natStr st ++ ": " ++ body) = body) ∧
    (200 ≤ st ∧ st ≤ 299 →
      ∀ P, jsonParse body = some P → gisHandleResponse st body = .ok P) := by
  have hdata : ("gis.ph API error " ++ natStr st ++ ": " ++ body).data
      = "gis.ph API error ".data ++ (natDigits st ++ ([':', ' '] ++ body.data)) := by
    simp [String.data_append, natStr, List.append_assoc]
  have hlen17 : ("gis.ph API error ".data).length = 17 := rfl
  have htk : takeDigits (natDigits st ++ ([':', ' '] ++ body.data))
      = (natDigits st, [':', ' '] ++ body.data) :=
    takeDigits_run _ (natDigits_all_digits st) _ rfl
  constructor
  · intro hnot
    have hok : responseOk st = false := by
      simp [responseOk]
      omega
    refine ⟨by simp [gisHandleResponse, hok], ?_, ?_⟩
    · show digitsToNat (takeDigits (("gis.ph API error " ++ natStr st ++ ": " ++ body).data.drop 17)).1 = st
      rw [hdata, ← hlen17, List.drop_left, htk, digitsToNat_natDigits]
    · show (⟨((takeDigits (("gis.ph API error " ++ natStr st ++ ": " ++ body).data.drop 17)).2).drop 2⟩ : String) = body
      rw [hdata, ← hlen17, List.drop_left, htk]
      rfl
  · intro hok P hparse
    have hok2 : responseOk st = true := by
      simp [responseOk]
      omega
    simp [gisHandleResponse, hok2, hparse]

theorem intChars_ofNat (n : Nat) : intChars (n : Int) = natDigits n := by
  have h1 : ¬ ((n : Int) < 0) := by omega
  simp [intChars, h1]

theorem debugKey_data (k : String) :
    (jstr (debugKeyJson k)).data
      = (lbrace :: ('"' :: ("key_length".data ++ ['"', ':'])))
        ++ (natDigits k.length
          ++ ((',' :: ('"' :: ("key_preview".data ++ ['"', ':', '"'])))
            ++ (escStr (k.take 4).data ++ ['"', rbrace]))) := by
  have hesc1 : escStr "key_length".data = "key_length".data := by decide
  have hesc2 : escStr "key_preview".data = "key_preview".data := by decide
  show jstrL (debugKeyJson k) = _
  simp only [debugKeyJson, jstrL, jstrTailFields, strLit, hesc1, hesc2, intChars_ofNat]
  simp [List.append_assoc]

/-- Both observables of the secret survive serialization: the `debug_key`
text determines the credential's length and its first four characters. -/
theorem debugKey_decode (k : String) :
    dbgDecodeLen (jstr (debugKeyJson k)).data = k.length ∧
    dbgDecodePreview (jstr (debugKeyJson k)).data = some (k.take 4).data := by
  have hd := debugKey_data k
  have hpre : (lbrace :: ('"' :: ("key_length".data ++ ['"', ':']))).length = 14 := by decide
  have hmid : (',' :: ('"' :: ("key_preview".data ++ ['"', ':', '"']))).length = 16 := by decide
  have htk : takeDigits (natDigits k.length
        ++ ((',' :: ('"' :: ("key_preview".data ++ ['"', ':', '"'])))
          ++ (escStr (k.take 4).data ++ ['"', rbrace])))
      = (natDigits k.length,
          (',' :: ('"' :: ("key_preview".data ++ ['"', ':', '"'])))
            ++ (escStr (k.take 4).data ++ ['"', rbrace])) :=
    takeDigits_run _ (natDigits_all_digits _) _ rfl
  constructor
  · show digitsToNat (takeDigits ((jstr (debugKeyJson k)).data.drop 14)).1 = k.length
    rw [hd, ← hpre, List.drop_left, htk, digitsToNat_natDigits]
  · show (strBody ((takeDigits ((jstr (debugKeyJson k)).data.drop 14)).2.drop 16)).map
        (fun p => p.1) = some (k.take 4).data
    rw [hd, ← hpre, List.drop_left, htk]
    show (strBody ((((',' :: ('"' :: ("key_preview".data ++ ['"', ':', '"'])))
        ++ (escStr (k.take 4).data ++ ['"', rbrace]))).drop 16)).map (fun p => p.1) = _
    rw [← hmid, List.drop_left,
      show escStr (k.take 4).data ++ ['"', rbrace] = escStr (k.take 4).data ++ '"' :: [rbrace] from rfl,
      strBody_escStr]
    rfl

/-- C2: the `debug_key` tool of the Hono variant returns a single text block
from which the credential's length and its first four characters are
recoverable, so credentials differing in length or in their 4-character
preview produce different tool outputs — the output is not independent of
the secret. -/
theorem c2_debug_key_depends_on_secret (k1 k2 : String)
    (h : k1.length ≠ k2.length ∨ k1.take 4 ≠ k2.take 4) :
    (debugKeyEnvelope k1).content.length = 1 ∧
    (∀ s, ContentBlock.text s ∈ (debugKeyEnvelope k1).content →
      dbgDecodeLen s.data = k1.length ∧ dbgDecodePreview s.data = some (k1.take 4).data) ∧
    debugKeyEnvelope k1 ≠ debugKeyEnvelope k2 := by
  refine ⟨rfl, ?_, ?_⟩
  · intro s hs
    have hs2 : s = jstr (debugKeyJson k1) := by
      simp [debugKeyEnvelope] at hs
      exact hs
    rw [hs2]
    exact debugKey_decode k1
  · intro he
    have htext : jstr (debugKeyJson k1) = jstr (debugKeyJson k2) := by
      have hc := congrArg Envelope.content he
      simp [debugKeyEnvelope] at hc
      exact hc
    have hdata : (jstr (debugKeyJson k1)).data = (jstr (debugKeyJson k2)).data :=
      congrArg String.data htext
    obtain ⟨hl1, hp1⟩ := debugKey_decode k1
    obtain ⟨hl2, hp2⟩ := debugKey_decode k2
    cases h with
    | inl hL =>
      apply hL
      rw [← hl1, ← hl2, hdata]
    | inr hP =>
      apply hP
      have hsome : some (k1.take 4).data = some (k2.take 4).data := by
        rw [← hp1, ← hp2, hdata]
      have hdt : (k1.take 4).data = (k2.take 4).data := by
        injection hsome
      exact String.ext hdt

/-- C2 witness at credentials "abcdef" and "xy" (different lengths and
different previews). -/
theorem c2_witness :
    (debugKeyEnvelope "abcdef").content.length = 1 ∧
    (dbgDecodeLen (jstr (debugKeyJson "abcdef")).data = "abcdef".length ∧
      dbgDecodePreview (jstr (debugKeyJson "abcdef")).data = some ("abcdef".take 4).data) ∧
    debugKeyEnvelope "abcdef" ≠ debugKeyEnvelope "xy" :=
  have h := c2_debug_key_depends_on_secret "abcdef" "xy" (Or.inl (by decide))
  ⟨h.1, h.2.1 (jstr (debugKeyJson "abcdef")) (List.mem_singleton.mpr rfl), h.2.2⟩

/-- C5: every optional query-routed parameter that is unset (absent or empty)
is omitted from the constructed upstream query — the key never appears, not
even with an empty value; and `search_location` with query "Quezon" and no
type yields the upstream query string exactly `q=Quezon`. -/
theorem c5_optional_query_omitted (args : Args) (apiKey : String) :
    ((argStr args "province_code" = none ∨ argStr args "province_code" = some "") →
      ∃ req, routeTool "get_cities" args apiKey = some req ∧
        queryHasKey req "province_code" = false) ∧
    ((argStr args "city_code" = none ∨ argStr args "city_code" = some "") →
      ∃ req, routeTool "get_barangays" args apiKey = some req ∧
        queryHasKey req "city_code" = false) ∧
    ((argStr args "province_code" = none ∨ argStr args "province_code" = some "") →
      ∃ req, routeTool "get_barangays" args apiKey = some req ∧
        queryHasKey req "province_code" = false) ∧
    (argStr args "type" = none →
      ∃ req, routeTool "search_location" args apiKey = some req ∧
        queryHasKey req "type" = false) ∧
    (∃ req, routeTool "search_location" [("query", ArgVal.s "Quezon")] apiKey = some req ∧
      renderQuery req.query = "q=Quezon" ∧ queryHasKey req "type" = false) := by
  refine ⟨?_, ?_, ?_, ?_, ?_⟩
  · intro h
    refine ⟨_, rfl, ?_⟩
    have hj : jsTruthy (argStr args "province_code") = false := by
      rcases h with h | h <;> simp [h, jsTruthy]
    simp [routeTool, hj, queryHasKey, gisApiRequest, buildQuery]
  · intro h
    have hj : jsTruthy (argStr args "city_code") = false := by
      rcases h with h | h <;> simp [h, jsTruthy]
    refine ⟨gisApiRequest "/barangays" apiKey
      (some ((if jsTruthy (argStr args "city_code")
          then [("city_code", (argStr args "city_code").getD "")] else [])
        ++ (if jsTruthy (argStr args "province_code")
          then [("province_code", (argStr args "province_code").getD "")] else []))), ?_, ?_⟩
    · simp [routeTool]
    · simp only [queryHasKey, gisApiRequest, buildQuery]
      simp only [hj, Bool.false_eq_true, if_false, List.nil_append]
      cases hp : jsTruthy (argStr args "province_code") <;>
        simp [List.any_eq_true, List.mem_filter]
  · intro h
    have hj : jsTruthy (argStr args "province_code") = false := by
      rcases h with h | h <;> simp [h, jsTruthy]
    refine ⟨gisApiRequest "/barangays" apiKey
      (some ((if jsTruthy (argStr args "city_code")
          then [("city_code", (argStr args "city_code").getD "")] else [])
        ++ (if jsTruthy (argStr args "province_code")
          then [("province_code", (argStr args "province_code").getD "")] else []))), ?_, ?_⟩
    · simp [routeTool]
    · simp only [queryHasKey, gisApiRequest, buildQuery]
      simp only [hj, Bool.false_eq_true, if_false, List.append_nil]
      cases hc : jsTruthy (argStr args "city_code") <;>
        simp [List.any_eq_true, List.mem_filter]
  · intro h
    have hj : jsTruthy (argStr args "type") = false := by simp [h, jsTruthy]
    refine ⟨gisApiRequest "/search" apiKey
      (some (("q", (argStr args "query").getD "")
        :: (if jsTruthy (argStr args "type")
          then [("type", (argStr args "type").getD "")] else []))), ?_, ?_⟩
    · simp [routeTool]
    · simp only [queryHasKey, gisApiRequest, buildQuery]
      simp only [hj, Bool.false_eq_true, if_false, List.append_nil]
      simp [List.any_eq_true, List.mem_filter]
  · exact ⟨_, rfl, rfl, rfl⟩

/-- C5 witness: `get_cities` with no arguments omits `province_code`, and the
concrete `search_location` example yields `q=Quezon`. -/
theorem c5_witness :
    (∃ req, routeTool "get_cities" [] "K" = some req ∧
      queryHasKey req "province_code" = false) ∧
    (∃ req, routeTool "search_location" [("query", ArgVal.s "Quezon")] "K" = some req ∧
      renderQuery req.query = "q=Quezon" ∧ queryHasKey req "type" = false) :=
  ⟨(c5_optional_query_omitted [] "K").1 (Or.inl rfl),
   (c5_optional_query_omitted [] "K").2.2.2.2⟩

/-- A dispatch that issued exactly the call `req` took the success path:
its outcome is the wrap of `gisHandleResponse` on the oracle's answer. -/
theorem dispatch_inv (toolName : String) (args : Args) (apiKey : String)
    (upstream : UpstreamRequest → Nat × String) (req : UpstreamRequest)
    (hcalls : (dispatch toolName args apiKey upstream).2 = [req]) :
    dispatch toolName args apiKey upstream
      = ((match gisHandleResponse (upstream req).1 (upstream req).2 with
          | .ok data => DispatchOutcome.success (mkEnvelope data)
          | .error (.apiError m) => .upstreamFailed m
          | .error .badJson => .badUpstreamJson), [req]) := by
  unfold dispatch at hcalls ⊢
  split at hcalls
  next => simp at hcalls
  next sch hfind =>
    split at hcalls
    next hval =>
      split at hcalls
      next hroute =>
        simp at hcalls
      next req2 hroute =>
        simp at hcalls
        subst hcalls
        simp [hval, hroute]
    next hval =>
      simp at hcalls

/-- C6: when the upstream call of a dispatch answers 2xx with a JSON payload
P, the gateway's outcome is an envelope with exactly one text block holding
the 2-space pretty-printed serialization of P, and parsing that text yields P
again. -/
theorem c6_success_envelope_roundtrip (toolName : String) (args : Args) (apiKey : String)
    (upstream : UpstreamRequest → Nat × String) (req : UpstreamRequest)
    (st : Nat) (body : String) (P : Json)
    (hcalls : (dispatch toolName args apiKey upstream).2 = [req])
    (hresp : upstream req = (st, body))
    (hok : 200 ≤ st ∧ st ≤ 299)
    (hparse : jsonParse body = some P) :
    (dispatch toolName args apiKey upstream).1
      = .success ⟨[ContentBlock.text (jstrPretty P)]⟩ ∧
    jsonParse (jstrPretty P) = some P := by
  refine ⟨?_, jsonParse_jstrPretty P⟩
  have hokb : responseOk st = true := by
    simp [responseOk]
    omega
  rw [dispatch_inv toolName args apiKey upstream req hcalls, hresp]
  simp [gisHandleResponse, hokb, hparse, mkEnvelope]

/-- C6 witness: `get_provinces` under an oracle answering 200 with body
"null". -/
theorem c6_witness :
    (dispatch "get_provinces" [] "K" (fun _ => (200, "null"))).1
        = .success ⟨[ContentBlock.text (jstrPretty Json.null)]⟩ ∧
    jsonParse (jstrPretty Json.null) = some Json.null :=
  c6_success_envelope_roundtrip "get_provinces" [] "K" (fun _ => (200, "null"))
    (gisApiRequest "/provinces" "K" none) 200 "null" Json.null rfl rfl (by omega) rfl

/-- C10: the non-empty filter also applies to required query-routed
parameters: `search_location` with an empty query string still issues its one
upstream request to `/search`, but with no `q` key at all; likewise
`get_demographics` with an empty location code sends no `code` key. -/
theorem c10_empty_required_filtered (tOpt lOpt : Option String) (apiKey : String)
    (upstream : UpstreamRequest → Nat × String)
    (ht : tOpt = none ∨ tOpt = some "province" ∨ tOpt = some "city"
      ∨ tOpt = some "municipality" ∨ tOpt = some "barangay")
    (hl : lOpt = some "province" ∨ lOpt = some "city" ∨ lOpt = some "barangay") :
    (∃ req,
      (dispatch "search_location"
          (("query", ArgVal.s "")
            :: (match tOpt with | some t => [("type", ArgVal.s t)] | none => []))
          apiKey upstream).2 = [req] ∧
      req.url = "https://api.gis.ph/v1/search" ∧
      queryHasKey req "q" = false) ∧
    (∃ req,
      (dispatch "get_demographics"
          [("location_code", ArgVal.s ""), ("level", ArgVal.s (lOpt.getD ""))]
          apiKey upstream).2 = [req] ∧
      req.url = "https://api.gis.ph/v1/analytics/demographics" ∧
      queryHasKey req "code" = false) := by
  constructor
  · rcases ht with rfl | rfl | rfl | rfl | rfl <;> exact ⟨_, rfl, rfl, rfl⟩
  · rcases hl with rfl | rfl | rfl <;> exact ⟨_, rfl, rfl, rfl⟩

/-- C10 witness: `search_location` with query "" and no type, and
`get_demographics` with an empty code at level "city". -/
theorem c10_witness :
    (∃ req,
      (dispatch "search_location" [("query", ArgVal.s "")] "K"
          (fun _ => (200, "null"))).2 = [req] ∧
      req.url = "https://api.gis.ph/v1/search" ∧
      queryHasKey req "q" = false) ∧
    (∃ req,
      (dispatch "get_demographics"
          [("location_code", ArgVal.s ""), ("level", ArgVal.s ((some "city").getD ""))] "K"
          (fun _ => (200, "null"))).2 = [req] ∧
      req.url = "https://api.gis.ph/v1/analytics/demographics" ∧
      queryHasKey req "code" = false) :=
  c10_empty_required_filtered none (some "city") "K" (fun _ => (200, "null"))
    (Or.inl rfl) (Or.inr (Or.inl rfl))

/-- C9 witness: a 503 with a plain-text body, and a 200 with body "null". -/
theorem c9_witness :
    (gisHandleResponse 503 "service down"
        = .error (.apiError ("gis.ph API error " ++ natStr 503 ++ ": " ++ "service down")) ∧
      errMsgStatus ("gis.ph API error " ++ natStr 503 ++ ": " ++ "service down") = 503 ∧
      errMsgBody ("gis.ph API error " ++ natStr 503 ++ ": " ++ "service down") = "service down") ∧
    gisHandleResponse 200 "null" = .ok Json.null :=
  ⟨(c9_upstream_response_handling 503 "service down").1 (by omega),
   (c9_upstream_response_handling 200 "null").2 (by omega) Json.null rfl⟩

end GisPh

